import Mathlib

/-!
Verification development for the sentry-mcp access-control and session-bootstrap
subsystem.  Definitions are shallow embeddings of the TypeScript sources:

* `packages/mcp-server/src/skills.ts` — the flat skill registry
* `packages/mcp-server/src/permissions.ts` — the hierarchical scope model and
  the server configuration (tool filtering / constraint injection)
* `packages/mcp-server/src/cli/{parse,resolve}.ts` — configuration merge and
  finalization
* `packages/mcp-test-client/src/auth/oauth.ts` — the OAuth bootstrap control
  flow around the local callback listener

Helper modules that exist in the repository but whose sources are not part of
this snapshot (`internal/constraint-helpers.ts`, `utils/url-utils.ts`) are
modelled from the specification and carry a doc comment saying so.
-/

namespace SentryMcp

/-! ### Skills (skills.ts) -/

/-- The five skill identifiers of the closed skill set. -/
inductive Skill where
  | inspect
  | triage
  | projectManagement
  | seer
  | docs
deriving DecidableEq, Repr, Fintype

/-- Metadata record of a skill in the `SKILLS` registry. -/
structure SkillDefinition where
  id : Skill
  name : String
  defaultEnabled : Bool
  order : Nat
deriving DecidableEq, Repr

/-- The `SKILLS` registry: metadata for each skill. -/
def SKILLS : Skill → SkillDefinition
  | .inspect => ⟨.inspect, "Inspect Issues & Events", true, 1⟩
  | .seer => ⟨.seer, "Seer", true, 2⟩
  | .docs => ⟨.docs, "Documentation", false, 3⟩
  | .triage => ⟨.triage, "Triage Issues", false, 4⟩
  | .projectManagement => ⟨.projectManagement, "Manage Projects & Teams", false, 5⟩

/-- `Object.keys(SKILLS)` in insertion order of the source record. -/
def ALL_SKILLS : List Skill :=
  [.inspect, .seer, .docs, .triage, .projectManagement]

/-- `SKILLS_ARRAY` sorted by `order`, as ids. -/
def SKILLS_ARRAY_IDS : List Skill :=
  [.inspect, .seer, .docs, .triage, .projectManagement]

/-- `DEFAULT_SKILLS`: ids of the skills with `defaultEnabled = true`. -/
def DEFAULT_SKILLS : List Skill :=
  SKILLS_ARRAY_IDS.filter fun s => (SKILLS s).defaultEnabled

/-- The string spelling of a skill id (the record keys of `SKILLS`). -/
def skillToString : Skill → String
  | .inspect => "inspect"
  | .triage => "triage"
  | .projectManagement => "project-management"
  | .seer => "seer"
  | .docs => "docs"

/-- `isValidSkill`: membership of a string in the skill registry, returning
the matched skill.  `none` mirrors `skill in SKILLS` being false. -/
def skillOfString (s : String) : Option Skill :=
  if s = "inspect" then some .inspect
  else if s = "triage" then some .triage
  else if s = "project-management" then some .projectManagement
  else if s = "seer" then some .seer
  else if s = "docs" then some .docs
  else none

/-- `hasRequiredSkills(grantedSkills, requiredSkills)`: false when granted is
undefined or required is empty; otherwise ANY-of intersection. -/
def hasRequiredSkills (grantedSkills : Option (Finset Skill))
    (requiredSkills : List Skill) : Bool :=
  match grantedSkills with
  | none => false
  | some granted =>
    if requiredSkills.length = 0 then false
    else requiredSkills.any fun s => s ∈ granted

/-- Split a character list at every occurrence of the separator; on the empty
list this yields one empty field, matching `String.prototype.split`. -/
def splitOnChar (sep : Char) : List Char → List (List Char)
  | [] => [[]]
  | c :: cs =>
    let r := splitOnChar sep cs
    if c = sep then [] :: r
    else
      match r with
      | [] => [[c]]
      | t :: ts => (c :: t) :: ts

/-- `input.split(sep)` of the source, modelled over the character list so that
proofs can evaluate it. -/
def jsSplit (sep : Char) (s : String) : List String :=
  (splitOnChar sep s.data).map fun cs => String.mk cs

/-- Whitespace recognized by `trim`. -/
def isWhitespaceChar (c : Char) : Bool :=
  c = ' ' ∨ c = '\t' ∨ c = '\n' ∨ c = '\r'

/-- `s.trim()` of the source, modelled over the character list so that proofs
can evaluate it. -/
def jsTrim (s : String) : String :=
  String.mk (((s.data.dropWhile isWhitespaceChar).reverse.dropWhile
    isWhitespaceChar).reverse)

/-- Result of `parseSkills`. -/
structure ParsedSkills where
  valid : Finset Skill
  invalid : List String
deriving DecidableEq

/-- `parseSkills(input)`: split on commas, trim, collect valid skills as a set
and non-empty invalid tokens in order. -/
def parseSkills (input : String) : ParsedSkills :=
  if input = "" then ⟨∅, []⟩
  else
    (jsSplit ',' input).foldl
      (fun acc tok =>
        let t := jsTrim tok
        match skillOfString t with
        | some sk => { acc with valid := insert sk acc.valid }
        | none => if t = "" then acc else { acc with invalid := acc.invalid ++ [t] })
      ⟨∅, []⟩

/-! ### Scopes (permissions.ts) -/

/-- The sixteen scope tokens. -/
inductive Scope where
  | orgRead | orgWrite | orgAdmin
  | projectRead | projectWrite | projectAdmin
  | teamRead | teamWrite | teamAdmin
  | memberRead | memberWrite | memberAdmin
  | eventRead | eventWrite | eventAdmin
  | projectReleases
deriving DecidableEq, Repr, Fintype

/-- `SCOPE_HIERARCHY`: each scope maps to the set of scopes it implies
(including itself). -/
def SCOPE_HIERARCHY : Scope → Finset Scope
  | .orgRead => {.orgRead}
  | .orgWrite => {.orgRead, .orgWrite}
  | .orgAdmin => {.orgRead, .orgWrite, .orgAdmin}
  | .projectRead => {.projectRead}
  | .projectWrite => {.projectRead, .projectWrite}
  | .projectAdmin => {.projectRead, .projectWrite, .projectAdmin}
  | .teamRead => {.teamRead}
  | .teamWrite => {.teamRead, .teamWrite}
  | .teamAdmin => {.teamRead, .teamWrite, .teamAdmin}
  | .memberRead => {.memberRead}
  | .memberWrite => {.memberRead, .memberWrite}
  | .memberAdmin => {.memberRead, .memberWrite, .memberAdmin}
  | .eventRead => {.eventRead}
  | .eventWrite => {.eventRead, .eventWrite}
  | .eventAdmin => {.eventRead, .eventWrite, .eventAdmin}
  | .projectReleases => {.projectReleases}

/-- `Object.keys(SCOPE_HIERARCHY)` in insertion order: the `ALL_SCOPES` list. -/
def ALL_SCOPES : List Scope :=
  [.orgRead, .orgWrite, .orgAdmin,
   .projectRead, .projectWrite, .projectAdmin,
   .teamRead, .teamWrite, .teamAdmin,
   .memberRead, .memberWrite, .memberAdmin,
   .eventRead, .eventWrite, .eventAdmin,
   .projectReleases]

/-- String spelling of a scope token. -/
def scopeToString : Scope → String
  | .orgRead => "org:read"
  | .orgWrite => "org:write"
  | .orgAdmin => "org:admin"
  | .projectRead => "project:read"
  | .projectWrite => "project:write"
  | .projectAdmin => "project:admin"
  | .teamRead => "team:read"
  | .teamWrite => "team:write"
  | .teamAdmin => "team:admin"
  | .memberRead => "member:read"
  | .memberWrite => "member:write"
  | .memberAdmin => "member:admin"
  | .eventRead => "event:read"
  | .eventWrite => "event:write"
  | .eventAdmin => "event:admin"
  | .projectReleases => "project:releases"

/-- Membership of a string in `ALL_SCOPES_SET`, returning the matched scope. -/
def scopeOfString (s : String) : Option Scope :=
  (ALL_SCOPES.filter fun sc => scopeToString sc = s).head?

/-- `expandScopes(grantedScopes)`: union of the hierarchy entries of every
granted scope. -/
def expandScopes (grantedScopes : Finset Scope) : Finset Scope :=
  grantedScopes.biUnion SCOPE_HIERARCHY

/-- `hasRequiredScopes(grantedScopes, requiredScopes)`: the expansion of the
granted set contains every required scope. -/
def hasRequiredScopes (grantedScopes : Finset Scope)
    (requiredScopes : List Scope) : Bool :=
  requiredScopes.all fun scope => scope ∈ expandScopes grantedScopes

/-- `isToolAllowed(requiredScopes, grantedScopes)`: tools with no required
scopes (undefined or empty) are always allowed. -/
def isToolAllowed (requiredScopes : Option (List Scope))
    (grantedScopes : Finset Scope) : Bool :=
  match requiredScopes with
  | none => true
  | some req =>
    if req.length = 0 then true
    else hasRequiredScopes grantedScopes req

/-- Result of `parseScopes`. -/
structure ParsedScopes where
  valid : Finset Scope
  invalid : List String
deriving DecidableEq

/-- `parseScopes(input)` for a string input: tokenize on commas, trim, drop
empty tokens, then validate each token against the known scope set. -/
def parseScopes (input : String) : ParsedScopes :=
  (((jsSplit ',' input).map jsTrim).filter fun t => t ≠ "").foldl
    (fun acc t =>
      match scopeOfString t with
      | some sc => { acc with valid := insert sc acc.valid }
      | none => { acc with invalid := acc.invalid ++ [t] })
    ⟨∅, []⟩

/-- `resolveScopes({override, add, defaults})`: override replaces defaults and
is expanded; add unions with defaults and is expanded; otherwise undefined. -/
def resolveScopes (override add : Option (Finset Scope))
    (defaults : List Scope) : Option (Finset Scope) :=
  match override with
  | some o => some (expandScopes o)
  | none =>
    match add with
    | some a => some (expandScopes (defaults.foldl (fun b s => insert s b) a))
    | none => none

/-- `DEFAULT_SCOPES` from constants.ts. -/
def DEFAULT_SCOPES : List Scope :=
  [.orgRead, .projectRead, .teamRead, .eventRead]

/-! ### Server configuration: tool filtering and constraint injection
(`configureServer` in server.ts; helper shapes from types.ts) -/

/-- Session constraints from types.ts (`organizationSlug`, `projectSlug`,
`regionUrl`; `none` covers both `undefined` and `null`). -/
structure Constraints where
  organizationSlug : Option String := none
  projectSlug : Option String := none
  regionUrl : Option String := none
deriving DecidableEq

/-- The parts of a `ToolConfig` that drive registration: required skills,
required scopes, and the declared parameter keys of the input schema. -/
structure ToolConfig where
  name : String
  requiredSkills : Option (List Skill) := none
  requiredScopes : Option (List Scope) := none
  inputSchema : List String := []
deriving DecidableEq

/-- The `allowed` computation of `configureServer`: skills mode takes
precedence whenever `grantedSkills` is a set (even an empty one); otherwise
the legacy scope check runs when `grantedScopes` is a set; otherwise the tool
stays disallowed. -/
def toolAllowed (grantedSkills : Option (Finset Skill))
    (grantedScopes : Option (Finset Scope)) (tool : ToolConfig) : Bool :=
  match grantedSkills with
  | some granted =>
    match tool.requiredSkills with
    | some req =>
      if req.length > 0 then hasRequiredSkills (some granted) req else false
    | none => false
  | none =>
    match grantedScopes with
    | some granted => isToolAllowed tool.requiredScopes granted
    | none => false

/-- Modelled from the spec: the constraint value (if any) satisfied by a
declared parameter key, `projectSlugOrId` being a documented alias of the
project constraint (`internal/constraint-helpers.ts` is not part of this
source snapshot; only its caller `configureServer` is). -/
def constraintValueForKey (c : Constraints) (key : String) : Option String :=
  if key = "organizationSlug" then c.organizationSlug
  else if key = "projectSlug" then c.projectSlug
  else if key = "projectSlugOrId" then c.projectSlug
  else if key = "regionUrl" then c.regionUrl
  else none

/-- Modelled from the spec: `getConstraintParametersToInject(constraints,
inputSchema)` — the subset of declared parameter names matching an active
constraint, paired with the constrained value. -/
def getConstraintParametersToInject (c : Constraints)
    (inputSchema : List String) : List (String × String) :=
  inputSchema.filterMap fun k => (constraintValueForKey c k).map fun v => (k, v)

/-- Modelled from the spec: `getConstraintKeysToFilter(constraints,
inputSchema)` — the declared parameter names stripped from the advertised
schema because they match an active constraint. -/
def getConstraintKeysToFilter (c : Constraints)
    (inputSchema : List String) : List String :=
  (getConstraintParametersToInject c inputSchema).map Prod.fst

/-- JavaScript object spread `\x7b ...a, ...b \x7d` on string-keyed bags:
entries of `a` not shadowed by `b`, then the entries of `b`. -/
def objectSpread (a b : List (String × String)) : List (String × String) :=
  (a.filter fun p => (b.lookup p.1).isNone) ++ b

/-- The argument bag handed to the tool handler in `configureServer`:
`paramsWithConstraints = \x7b ...params, ...applicableConstraints \x7d`. -/
def paramsWithConstraints (c : Constraints) (inputSchema : List String)
    (params : List (String × String)) : List (String × String) :=
  objectSpread params (getConstraintParametersToInject c inputSchema)

/-! ### CLI configuration (cli/parse.ts, cli/resolve.ts) -/

/-- JavaScript truthiness of an optional string flag: absent and the empty
string are falsy. -/
def truthy : Option String → Bool
  | none => false
  | some s => s ≠ ""

/-- The nullish-coalescing operator `a ?? b` on optional strings (keeps an
empty string present on the left). -/
def jsNullish (a b : Option String) : Option String :=
  match a with
  | some v => some v
  | none => b

/-- CLI arguments (from `parseArgv`). -/
structure CliArgs where
  accessToken : Option String := none
  host : Option String := none
  url : Option String := none
  mcpUrl : Option String := none
  sentryDsn : Option String := none
  openaiBaseUrl : Option String := none
  openaiModel : Option String := none
  organizationSlug : Option String := none
  projectSlug : Option String := none
  scopes : Option String := none
  addScopes : Option String := none
  allScopes : Bool := false
  skills : Option String := none
  agent : Bool := false
  help : Bool := false
  version : Bool := false
  unknownArgs : List String := []
deriving DecidableEq

/-- Environment arguments (from `parseEnv`; only these fields are ever set
from the environment — in particular no OpenAI base URL and no constraint
slugs). -/
structure EnvArgs where
  accessToken : Option String := none
  url : Option String := none
  host : Option String := none
  mcpUrl : Option String := none
  sentryDsn : Option String := none
  openaiModel : Option String := none
  scopes : Option String := none
  addScopes : Option String := none
  skills : Option String := none
deriving DecidableEq

/-- The merged argument record consumed by `finalize`. -/
structure MergedArgs where
  accessToken : Option String := none
  url : Option String := none
  host : Option String := none
  mcpUrl : Option String := none
  sentryDsn : Option String := none
  openaiBaseUrl : Option String := none
  openaiModel : Option String := none
  scopes : Option String := none
  addScopes : Option String := none
  allScopes : Bool := false
  skills : Option String := none
  agent : Bool := false
  organizationSlug : Option String := none
  projectSlug : Option String := none
  help : Bool := false
  version : Bool := false
  unknownArgs : List String := []
deriving DecidableEq

/-- `merge(cli, env)`: per field CLI wins (`??`), booleans and the OpenAI
base URL and constraint slugs are CLI-only, and the two legacy scope fields
are coupled by the trailing overrides of the source. -/
def merge (cli : CliArgs) (env : EnvArgs) : MergedArgs :=
  let merged : MergedArgs :=
    { accessToken := jsNullish cli.accessToken env.accessToken
      url := jsNullish cli.url env.url
      host := jsNullish cli.host env.host
      mcpUrl := jsNullish cli.mcpUrl env.mcpUrl
      sentryDsn := jsNullish cli.sentryDsn env.sentryDsn
      openaiBaseUrl := cli.openaiBaseUrl
      openaiModel := jsNullish cli.openaiModel env.openaiModel
      scopes := jsNullish cli.scopes env.scopes
      addScopes := jsNullish cli.addScopes env.addScopes
      allScopes := cli.allScopes
      skills := jsNullish cli.skills env.skills
      agent := cli.agent
      organizationSlug := cli.organizationSlug
      projectSlug := cli.projectSlug
      help := cli.help
      version := cli.version
      unknownArgs := cli.unknownArgs }
  let merged :=
    if truthy cli.scopes then { merged with addScopes := cli.addScopes } else merged
  if truthy cli.addScopes then { merged with scopes := cli.scopes } else merged

/-! ### finalize (cli/resolve.ts) -/

/-- `formatInvalid(invalid, envName?)`: the scope validation failure message,
joining every invalid token. -/
def formatInvalid (invalid : List String) (envName : Option String) : String :=
  let loc := match envName with
    | some e => e ++ " provided"
    | none => "Invalid scopes provided"
  "Error: " ++ loc ++ ": " ++ String.intercalate ", " invalid ++
    "\nAvailable scopes: " ++ String.intercalate ", " (ALL_SCOPES.map scopeToString)

/-- `formatInvalidSkills(invalid, envName?)`: the skill validation failure
message, joining every invalid token. -/
def formatInvalidSkills (invalid : List String) (envName : Option String) : String :=
  let loc := match envName with
    | some e => e ++ " provided"
    | none => "Invalid skills provided"
  "Error: " ++ loc ++ ": " ++ String.intercalate ", " invalid ++
    "\nAvailable skills: " ++ String.intercalate ", " (ALL_SKILLS.map skillToString)

/-- Modelled from the spec: `validateAndParseSentryUrlThrows` from
`utils/url-utils.ts` (not part of this source snapshot) — a full URL must be
HTTPS and its hostname is extracted, otherwise the call fails with a
"must be a full HTTPS URL" error. -/
def validateAndParseSentryUrl (url : String) : Except String String :=
  if url.startsWith "https://" then
    let rest := (url.drop 8).takeWhile fun ch => ch ≠ '/' ∧ ch ≠ ':'
    if rest = "" then
      .error "Error: Invalid Sentry URL. Must be a full HTTPS URL (e.g., https://sentry.example.com)"
    else .ok rest
  else
    .error "Error: Invalid Sentry URL. Must be a full HTTPS URL (e.g., https://sentry.example.com)"

/-- Modelled from the spec: `validateSentryHostThrows` from
`utils/url-utils.ts` (not part of this source snapshot) — a bare host is
checked against an allow-pattern (hostname shaped, no scheme or path). -/
def validateSentryHost (host : String) : Except String Unit :=
  if host ≠ "" ∧ ¬ host.contains '/' ∧ ¬ host.contains ':' then .ok ()
  else .error ("Error: Invalid Sentry host: " ++ host)

/-- Modelled from the spec: `validateOpenAiBaseUrlThrows` from
`utils/url-utils.ts` (not part of this source snapshot) — the OpenAI base URL
must be an absolute http or https URL. -/
def validateOpenAiBaseUrl (url : String) : Except String String :=
  if url.startsWith "http://" ∨ url.startsWith "https://" then .ok url
  else .error "Error: OPENAI base URL must use http or https scheme."

/-- The resolved session configuration produced by `finalize`. -/
structure ResolvedConfig where
  accessToken : String
  sentryHost : String
  mcpUrl : Option String := none
  sentryDsn : Option String := none
  openaiBaseUrl : Option String := none
  openaiModel : Option String := none
  finalScopes : Option (Finset Scope) := none
  finalSkills : Option (Finset Skill) := none
  organizationSlug : Option String := none
  projectSlug : Option String := none
deriving DecidableEq

/-- The host block of `finalize`: a truthy `url` is parsed as a full HTTPS
URL, else a truthy `host` is validated and used verbatim, else the canonical
SaaS host. -/
def hostResult (input : MergedArgs) : Except String String :=
  if truthy input.url then validateAndParseSentryUrl (input.url.getD "")
  else if truthy input.host then
    match validateSentryHost (input.host.getD "") with
    | .error e => .error e
    | .ok _ => .ok (input.host.getD "")
  else .ok "sentry.io"

/-- The legacy scope block of `finalize`: `allScopes` grants the full scope
set; else a truthy `scopes` override or `addScopes` additive value is parsed
strictly (any invalid token fails with the full enumeration; an empty valid
set is a distinct failure); else scopes stay undefined. -/
def scopesResult (input : MergedArgs) : Except String (Option (Finset Scope)) :=
  if input.allScopes then .ok (some ALL_SCOPES.toFinset)
  else if truthy input.scopes ∨ truthy input.addScopes then
    if truthy input.scopes then
      let p := parseScopes (input.scopes.getD "")
      if p.invalid ≠ [] then .error (formatInvalid p.invalid none)
      else if p.valid = ∅ then
        .error "Error: Invalid scopes provided. No valid scopes found."
      else .ok (resolveScopes (some p.valid) none DEFAULT_SCOPES)
    else
      let p := parseScopes (input.addScopes.getD "")
      if p.invalid ≠ [] then .error (formatInvalid p.invalid none)
      else if p.valid = ∅ then
        .error "Error: Invalid additional scopes provided. No valid scopes found."
      else .ok (resolveScopes none (some p.valid) DEFAULT_SCOPES)
  else .ok none

/-- The skill block of `finalize`: a truthy `skills` value is parsed strictly
(invalid tokens fail with the full enumeration; an empty valid set is a
distinct failure); an absent value grants the full skill set. -/
def skillsResult (input : MergedArgs) : Except String (Finset Skill) :=
  if truthy input.skills then
    let p := parseSkills (input.skills.getD "")
    if p.invalid ≠ [] then .error (formatInvalidSkills p.invalid none)
    else if p.valid = ∅ then
      .error "Error: Invalid skills provided. No valid skills found."
    else .ok p.valid
  else .ok ALL_SKILLS.toFinset

/-- The OpenAI base URL block of `finalize`: a truthy value must validate,
otherwise the field stays undefined. -/
def openaiResult (input : MergedArgs) : Except String (Option String) :=
  if truthy input.openaiBaseUrl then
    match validateOpenAiBaseUrl (input.openaiBaseUrl.getD "") with
    | .error e => .error e
    | .ok u => .ok (some u)
  else .ok none

/-- `finalize(input)`: access-token check, then the host, scope, skill, and
OpenAI blocks in source order; success copies the remaining fields through. -/
def finalize (input : MergedArgs) : Except String ResolvedConfig :=
  if ¬ truthy input.accessToken then
    .error "Error: No access token was provided. Pass one with `--access-token` or via `SENTRY_ACCESS_TOKEN`."
  else
    match hostResult input with
    | .error e => .error e
    | .ok sentryHost =>
      match scopesResult input with
      | .error e => .error e
      | .ok finalScopes =>
        match skillsResult input with
        | .error e => .error e
        | .ok finalSkills =>
          match openaiResult input with
          | .error e => .error e
          | .ok openaiBaseUrl =>
            .ok { accessToken := input.accessToken.getD ""
                  sentryHost := sentryHost
                  mcpUrl := input.mcpUrl
                  sentryDsn := input.sentryDsn
                  openaiBaseUrl := openaiBaseUrl
                  openaiModel := input.openaiModel
                  finalScopes := finalScopes
                  finalSkills := some finalSkills
                  organizationSlug := input.organizationSlug
                  projectSlug := input.projectSlug }

/-! ### OAuth bootstrap (mcp-test-client/src/auth/oauth.ts) -/

/-- What the local callback listener delivered to `waitForCallback`: an OAuth
error redirect, a request missing `code` or `state`, or a code/state pair. -/
inductive CallbackOutcome where
  | oauthError (error description : String)
  | missingParams
  | delivered (code state : String)
deriving DecidableEq

/-- The distinguishable failures of `authenticate()`. -/
inductive AuthError where
  | callbackError (message : String)
  | missingCodeOrState
  | stateMismatch
  | exchangeFailed (message : String)
deriving DecidableEq

/-- The resources and effects tracked across one `authenticate()` call. -/
structure AuthState where
  listenerOpen : Bool
  exchangeAttempted : Bool
  credentialCached : Bool
deriving DecidableEq

/-- The state right after `startCallbackServer` resolved: listener bound, no
exchange attempted, nothing cached. -/
def listenerBound : AuthState :=
  { listenerOpen := true, exchangeAttempted := false, credentialCached := false }

/-- The `finally` combinator: run the body, then apply the cleanup to the
state regardless of the body's outcome. -/
def tryFinally (body : AuthState → Except AuthError String × AuthState)
    (cleanup : AuthState → AuthState) (s : AuthState) :
    Except AuthError String × AuthState :=
  let r := body s
  (r.1, cleanup r.2)

/-- The cleanup block of `authenticate()`: `this.server.close()`. -/
def closeListener (s : AuthState) : AuthState :=
  { s with listenerOpen := false }

/-- The body of the `try` in `authenticate()`: await the callback, verify the
CSRF state against the generated one, then exchange the code and cache the
credential on success.  `exchange` is the oracle for the token-endpoint round
trip. -/
def authBody (generatedState : String) (callback : CallbackOutcome)
    (exchange : String → Except String String) (s : AuthState) :
    Except AuthError String × AuthState :=
  match callback with
  | .oauthError err desc =>
    (.error (.callbackError ("OAuth error: " ++ err ++ " - " ++ desc)), s)
  | .missingParams => (.error .missingCodeOrState, s)
  | .delivered code receivedState =>
    if receivedState ≠ generatedState then (.error .stateMismatch, s)
    else
      match exchange code with
      | .error e =>
        (.error (.exchangeFailed e), { s with exchangeAttempted := true })
      | .ok token =>
        (.ok token, { s with exchangeAttempted := true, credentialCached := true })

/-- `authenticate()` from the point the listener is bound: the `try` body
wrapped in the listener-closing `finally`. -/
def authenticate (generatedState : String) (callback : CallbackOutcome)
    (exchange : String → Except String String) :
    Except AuthError String × AuthState :=
  tryFinally (authBody generatedState callback exchange) closeListener listenerBound

/-! ## Shared lemmas -/

/-- Association-list lookup steps through a cons cell by key comparison. -/
theorem lookup_cons (k pk pv : String) (l : List (String × String)) :
    ((pk, pv) :: l).lookup k = if k = pk then some pv else l.lookup k := by
  by_cases h : k = pk
  · simp [List.lookup, h]
  · have hb : (k == pk) = false := beq_eq_false_iff_ne.mpr h
    simp [List.lookup, hb, h]

/-- Association-list lookup over an append tries the left list first. -/
theorem lookup_append (l₁ l₂ : List (String × String)) (k : String) :
    (l₁ ++ l₂).lookup k =
      match l₁.lookup k with
      | some v => some v
      | none => l₂.lookup k := by
  induction l₁ with
  | nil => simp
  | cons p l₁ ih =>
    rcases p with ⟨pk, pv⟩
    rw [List.cons_append, lookup_cons, lookup_cons]
    by_cases hk : k = pk
    · simp [hk]
    · simp only [if_neg hk]
      exact ih

/-- A key shadowed by the right bag does not survive the spread filter. -/
theorem lookup_filter_shadowed {b : List (String × String)} {k : String}
    {v : String} (a : List (String × String)) (h : b.lookup k = some v) :
    (a.filter fun p => (b.lookup p.1).isNone).lookup k = none := by
  induction a with
  | nil => simp
  | cons p a ih =>
    rcases p with ⟨pk, pv'⟩
    rw [List.filter_cons]
    by_cases hk : k = pk
    · subst hk
      rw [h]
      simpa using ih
    · by_cases hcond : (b.lookup pk).isNone
      · simp only [hcond, decide_True, if_true]
        rw [lookup_cons, if_neg hk]
        exact ih
      · simp only [hcond, decide_False, if_false]
        exact ih

/-- A key free of the right bag survives the spread filter with its first
binding intact. -/
theorem lookup_filter_not_shadowed {b : List (String × String)} {k : String}
    (a : List (String × String)) (h : b.lookup k = none) :
    (a.filter fun p => (b.lookup p.1).isNone).lookup k = a.lookup k := by
  induction a with
  | nil => simp
  | cons p a ih =>
    rcases p with ⟨pk, pv'⟩
    rw [List.filter_cons]
    by_cases hk : k = pk
    · subst hk
      rw [h]
      simp only [Option.isNone_none, decide_True, if_true]
      rw [lookup_cons, lookup_cons]
      simp
    · by_cases hcond : (b.lookup pk).isNone
      · simp only [hcond, decide_True, if_true]
        rw [lookup_cons, if_neg hk, lookup_cons, if_neg hk]
        exact ih
      · simp only [hcond, decide_False, if_false]
        rw [lookup_cons, if_neg hk]
        exact ih

/-- A key bound by the right bag of an object spread resolves to the right
bag's value. -/
theorem lookup_objectSpread_of_mem {a b : List (String × String)} {k : String}
    {v : String} (h : b.lookup k = some v) :
    (objectSpread a b).lookup k = some v := by
  unfold objectSpread
  rw [lookup_append, lookup_filter_shadowed a h]
  exact h

/-- A key not bound by the right bag of an object spread resolves as in the
left bag. -/
theorem lookup_objectSpread_of_none {a b : List (String × String)} {k : String}
    (h : b.lookup k = none) :
    (objectSpread a b).lookup k = a.lookup k := by
  unfold objectSpread
  rw [lookup_append, lookup_filter_not_shadowed a h]
  cases ha : a.lookup k <;> simp [ha, h]

/-- Expanding a single hierarchy entry is the entry itself: the hierarchy
table is transitively closed. -/
theorem expandScopes_hierarchy :
    ∀ s : Scope, expandScopes (SCOPE_HIERARCHY s) = SCOPE_HIERARCHY s := by
  decide

/-! ## Claim theorems -/

/-- C9: `expandScopes` is idempotent, every scope's expansion contains the
scope itself, and for every hierarchical resource the expansions of read,
write and admin form an ascending chain. -/
theorem c9_expandScopes_idempotent_monotone :
    (∀ S : Finset Scope, expandScopes (expandScopes S) = expandScopes S) ∧
    (∀ s : Scope, s ∈ expandScopes {s}) ∧
    (expandScopes {Scope.orgRead} ⊆ expandScopes {Scope.orgWrite} ∧
      expandScopes {Scope.orgWrite} ⊆ expandScopes {Scope.orgAdmin}) ∧
    (expandScopes {Scope.projectRead} ⊆ expandScopes {Scope.projectWrite} ∧
      expandScopes {Scope.projectWrite} ⊆ expandScopes {Scope.projectAdmin}) ∧
    (expandScopes {Scope.teamRead} ⊆ expandScopes {Scope.teamWrite} ∧
      expandScopes {Scope.teamWrite} ⊆ expandScopes {Scope.teamAdmin}) ∧
    (expandScopes {Scope.memberRead} ⊆ expandScopes {Scope.memberWrite} ∧
      expandScopes {Scope.memberWrite} ⊆ expandScopes {Scope.memberAdmin}) ∧
    (expandScopes {Scope.eventRead} ⊆ expandScopes {Scope.eventWrite} ∧
      expandScopes {Scope.eventWrite} ⊆ expandScopes {Scope.eventAdmin}) := by
  refine ⟨?_, by decide, by decide, by decide, by decide, by decide, by decide⟩
  intro S
  unfold expandScopes
  rw [Finset.biUnion_biUnion]
  exact Finset.biUnion_congr rfl fun s _ => expandScopes_hierarchy s

/-- C9 witness: idempotence and self-containment evaluated at a concrete
granted set and scope. -/
theorem c9_expandScopes_idempotent_monotone_witness :
    expandScopes (expandScopes {Scope.eventWrite, Scope.orgAdmin}) =
      expandScopes {Scope.eventWrite, Scope.orgAdmin} ∧
    Scope.projectReleases ∈ expandScopes {Scope.projectReleases} :=
  ⟨c9_expandScopes_idempotent_monotone.1 {Scope.eventWrite, Scope.orgAdmin},
   c9_expandScopes_idempotent_monotone.2.1 Scope.projectReleases⟩

/-- C2: under a skills grant the tool is exposed exactly when its declared
`requiredSkills` list exists, is non-empty, and intersects the granted set;
and `hasRequiredSkills` on an empty required list is always false. -/
theorem c2_skills_mode_exposure :
    (∀ (granted : Finset Skill) (gs : Option (Finset Scope)) (tool : ToolConfig),
      toolAllowed (some granted) gs tool = true ↔
        ∃ req, tool.requiredSkills = some req ∧ req ≠ [] ∧ ∃ s ∈ req, s ∈ granted) ∧
    (∀ grantedSkills : Option (Finset Skill), hasRequiredSkills grantedSkills [] = false) := by
  constructor
  · intro granted gs tool
    cases hreq : tool.requiredSkills with
    | none => simp [toolAllowed, hreq]
    | some req =>
      by_cases hlen : req = []
      · subst hlen
        simp [toolAllowed, hreq]
      · have hpos : req.length > 0 := List.length_pos.mpr hlen
        simp only [toolAllowed, hreq, if_pos hpos, hasRequiredSkills,
          if_neg (Nat.pos_iff_ne_zero.mp hpos), List.any_eq_true, decide_eq_true_eq,
          Option.some.injEq]
        constructor
        · rintro ⟨s, hs, hmem⟩
          exact ⟨req, rfl, hlen, s, hs, hmem⟩
        · rintro ⟨req', hreq', _, s, hs, hmem⟩
          subst hreq'
          exact ⟨s, hs, hmem⟩
  · intro grantedSkills
    cases grantedSkills <;> simp [hasRequiredSkills]

/-- C2 witness: ANY-of semantics at concrete skills, and the empty required
list denied under a concrete grant. -/
theorem c2_skills_mode_exposure_witness :
    toolAllowed (some {Skill.inspect}) none
      { name := "find_issues", requiredSkills := some [Skill.inspect, Skill.triage],
        requiredScopes := some [], inputSchema := [] } = true ∧
    hasRequiredSkills (some {Skill.inspect, Skill.docs}) [] = false :=
  ⟨(c2_skills_mode_exposure.1 {Skill.inspect} none _).mpr
      ⟨[Skill.inspect, Skill.triage], rfl, by decide, Skill.inspect, by decide, by decide⟩,
   c2_skills_mode_exposure.2 (some {Skill.inspect, Skill.docs})⟩

/-- C3: under a scope grant (no skills granted) the tool is exposed exactly
when the expansion of the granted set contains every required scope —
vacuously so for an empty or undefined `requiredScopes` — and with neither
grant present no tool is exposed. -/
theorem c3_scopes_mode_exposure :
    (∀ (granted : Finset Scope) (tool : ToolConfig),
      toolAllowed none (some granted) tool = true ↔
        ∀ r ∈ tool.requiredScopes.getD [], r ∈ expandScopes granted) ∧
    (∀ tool : ToolConfig, toolAllowed none none tool = false) := by
  constructor
  · intro granted tool
    cases hreq : tool.requiredScopes with
    | none => simp [toolAllowed, isToolAllowed, hreq]
    | some req =>
      by_cases hlen : req = []
      · subst hlen
        simp [toolAllowed, isToolAllowed, hreq]
      · have hpos : req.length ≠ 0 := fun h => hlen (List.length_eq_zero.mp h)
        simp [toolAllowed, isToolAllowed, hreq, if_neg hpos, hasRequiredScopes,
          List.all_eq_true, decide_eq_true_eq, hlen]
  · intro tool
    simp [toolAllowed]

/-- C3 witness: a tool with empty `requiredScopes` is exposed to an empty
scope grant, and a tool is denied when no grant is present. -/
theorem c3_scopes_mode_exposure_witness :
    toolAllowed none (some (∅ : Finset Scope))
      { name := "whoami", requiredSkills := some [], requiredScopes := some [],
        inputSchema := [] } = true ∧
    toolAllowed none none
      { name := "whoami", requiredSkills := some [], requiredScopes := some [],
        inputSchema := [] } = false :=
  ⟨(c3_scopes_mode_exposure.1 ∅ _).mpr (by decide),
   c3_scopes_mode_exposure.2 _⟩

/-- C10: a present-but-empty granted skill set keeps skills mode active:
whatever scopes are granted and whatever the tool requires, no tool is
registered. -/
theorem c10_empty_skills_grant_blocks_all :
    ∀ (grantedScopes : Option (Finset Scope)) (tool : ToolConfig),
      toolAllowed (some (∅ : Finset Skill)) grantedScopes tool = false := by
  intro grantedScopes tool
  cases hreq : tool.requiredSkills with
  | none => simp [toolAllowed, hreq]
  | some req =>
    simp only [toolAllowed, hreq]
    by_cases hpos : req.length > 0
    · rw [if_pos hpos]
      simp [hasRequiredSkills]
    · rw [if_neg hpos]

/-- C1 counterexample: with an active `organizationSlug` constraint and a tool
declaring that parameter, a caller-supplied explicit value is overwritten —
the handler receives the constrained value, not the caller's. The spread
`\x7b ...params, ...applicableConstraints \x7d` puts constraints last. -/
theorem c1_explicit_value_overwritten_counterexample :
    (paramsWithConstraints { organizationSlug := some "c" }
        ["organizationSlug", "query"]
        [("organizationSlug", "explicit")]).lookup "organizationSlug" = some "c" ∧
    (some "c" : Option String) ≠ some "explicit" := by
  exact ⟨by decide, by decide⟩

/-- C1 (amended): constrained values are injected for every declared
parameter key matching an active constraint and take precedence over a
caller-supplied explicit value; only keys without an injected constraint pass
the caller's value through unchanged. -/
theorem c1_constraint_injection_precedence :
    ∀ (c : Constraints) (schema : List String)
      (params : List (String × String)) (k : String),
      (∀ v, (getConstraintParametersToInject c schema).lookup k = some v →
        (paramsWithConstraints c schema params).lookup k = some v) ∧
      ((getConstraintParametersToInject c schema).lookup k = none →
        (paramsWithConstraints c schema params).lookup k = params.lookup k) := by
  intro c schema params k
  exact ⟨fun v hv => lookup_objectSpread_of_mem hv,
         fun hn => lookup_objectSpread_of_none hn⟩

/-- C1 witness: at a concrete constrained session, the injected key resolves
to the constraint and the unconstrained key resolves to the caller's value. -/
theorem c1_constraint_injection_precedence_witness :
    (paramsWithConstraints { organizationSlug := some "c" }
        ["organizationSlug", "query"]
        [("organizationSlug", "explicit"), ("query", "q")]).lookup "organizationSlug"
      = some "c" ∧
    (paramsWithConstraints { organizationSlug := some "c" }
        ["organizationSlug", "query"]
        [("organizationSlug", "explicit"), ("query", "q")]).lookup "query"
      = some "q" :=
  ⟨(c1_constraint_injection_precedence { organizationSlug := some "c" }
      ["organizationSlug", "query"] [("organizationSlug", "explicit"), ("query", "q")]
      "organizationSlug").1 "c" (by decide),
   ((c1_constraint_injection_precedence { organizationSlug := some "c" }
      ["organizationSlug", "query"] [("organizationSlug", "explicit"), ("query", "q")]
      "query").2 (by decide)).trans (by decide)⟩

/-- C4: every exit of the `try` body of `authenticate()` — success, callback
error, missing parameters, CSRF state mismatch, exchange failure — leaves the
callback listener closed, because the close runs in the `finally`. -/
theorem c4_authenticate_closes_listener :
    ∀ (generatedState : String) (callback : CallbackOutcome)
      (exchange : String → Except String String),
      (authenticate generatedState callback exchange).2.listenerOpen = false := by
  intro generatedState callback exchange
  cases callback <;>
    simp [authenticate, tryFinally, authBody, closeListener, listenerBound]

/-- C5: a delivered callback whose state differs from the generated one makes
`authenticate()` fail with the CSRF-specific error, with no token exchange
attempted and no credential cached (and the listener closed). -/
theorem c5_csrf_mismatch_rejects_before_exchange :
    ∀ (generatedState code receivedState : String)
      (exchange : String → Except String String),
      receivedState ≠ generatedState →
      authenticate generatedState (.delivered code receivedState) exchange =
        (.error .stateMismatch,
         { listenerOpen := false, exchangeAttempted := false,
           credentialCached := false }) := by
  intro generatedState code receivedState exchange h
  simp [authenticate, tryFinally, authBody, closeListener, listenerBound, h]

/-- C5 witness: a concrete mismatched state is rejected as a CSRF error. -/
theorem c5_csrf_mismatch_rejects_before_exchange_witness :
    authenticate "expected-state" (.delivered "auth-code" "tampered-state")
        (fun _ => .ok "token") =
      (.error .stateMismatch,
       { listenerOpen := false, exchangeAttempted := false,
         credentialCached := false }) :=
  c5_csrf_mismatch_rejects_before_exchange "expected-state" "auth-code"
    "tampered-state" (fun _ => .ok "token") (by decide)

/-- Inversion of a successful `finalize`: every block succeeded and the
configuration carries the block results. -/
theorem finalize_ok_inv (input : MergedArgs) (cfg : ResolvedConfig)
    (h : finalize input = .ok cfg) :
    truthy input.accessToken = true ∧
    (∃ hh, hostResult input = .ok hh ∧ cfg.sentryHost = hh) ∧
    (∃ fs, scopesResult input = .ok fs ∧ cfg.finalScopes = fs) ∧
    (∃ sk, skillsResult input = .ok sk ∧ cfg.finalSkills = some sk) := by
  unfold finalize at h
  split at h
  · simp at h
  · next hcond =>
    split at h
    · simp at h
    · next hh hhost =>
      split at h
      · simp at h
      · next fs hscopes =>
        split at h
        · simp at h
        · next sk hskills =>
          split at h
          · simp at h
          · next ob hopenai =>
            rw [Except.ok.injEq] at h
            subst h
            refine ⟨by simpa using hcond, ⟨hh, hhost, rfl⟩, ⟨fs, hscopes, rfl⟩,
              ⟨sk, hskills, rfl⟩⟩

/-- A skill-block failure surfaces as the failure of `finalize` when the
earlier blocks succeed. -/
theorem finalize_error_of_skills (input : MergedArgs) (e : String)
    (ht : truthy input.accessToken = true)
    (hh : ∃ hh, hostResult input = .ok hh)
    (hs : ∃ fs, scopesResult input = .ok fs)
    (hsk : skillsResult input = .error e) :
    finalize input = .error e := by
  obtain ⟨hhv, hh⟩ := hh
  obtain ⟨fsv, hs⟩ := hs
  simp [finalize, ht, hh, hs, hsk]

/-- A scope-block failure surfaces as the failure of `finalize` when the
token and host blocks succeed. -/
theorem finalize_error_of_scopes (input : MergedArgs) (e : String)
    (ht : truthy input.accessToken = true)
    (hh : ∃ hh, hostResult input = .ok hh)
    (hs : scopesResult input = .error e) :
    finalize input = .error e := by
  obtain ⟨hhv, hh⟩ := hh
  simp [finalize, ht, hh, hs]

/-- A supplied skills value with invalid tokens fails the skill block with
the full enumeration. -/
theorem skillsResult_invalid (input : MergedArgs) (s : String)
    (h : input.skills = some s) (hinv : (parseSkills s).invalid ≠ []) :
    skillsResult input = .error (formatInvalidSkills (parseSkills s).invalid none) := by
  have hne : s ≠ "" := by
    intro he
    subst he
    exact hinv (by decide)
  have ht : truthy (some s) = true := by simp [truthy, hne]
  simp [skillsResult, h, ht, hinv]

/-- A supplied skills value that parses to no valid skill (and no invalid
token) fails the skill block with the distinct empty-set error. -/
theorem skillsResult_empty_valid (input : MergedArgs) (s : String)
    (h : input.skills = some s) (hne : s ≠ "")
    (hinv : (parseSkills s).invalid = []) (hval : (parseSkills s).valid = ∅) :
    skillsResult input = .error "Error: Invalid skills provided. No valid skills found." := by
  have ht : truthy (some s) = true := by simp [truthy, hne]
  simp [skillsResult, h, ht, hinv, hval]

/-- A supplied scope override with invalid tokens fails the scope block with
the full enumeration. -/
theorem scopesResult_invalid_override (input : MergedArgs) (s : String)
    (h : input.scopes = some s) (hinv : (parseScopes s).invalid ≠ [])
    (hall : input.allScopes = false) :
    scopesResult input = .error (formatInvalid (parseScopes s).invalid none) := by
  have hne : s ≠ "" := by
    intro he
    subst he
    exact hinv (by decide)
  have ht : truthy (some s) = true := by simp [truthy, hne]
  simp [scopesResult, hall, h, ht, hinv]

/-- A supplied additive scope value with invalid tokens fails the scope block
with the full enumeration when no override is supplied. -/
theorem scopesResult_invalid_add (input : MergedArgs) (s : String)
    (h : input.addScopes = some s) (hinv : (parseScopes s).invalid ≠ [])
    (hall : input.allScopes = false) (hns : truthy input.scopes = false) :
    scopesResult input = .error (formatInvalid (parseScopes s).invalid none) := by
  have hne : s ≠ "" := by
    intro he
    subst he
    exact hinv (by decide)
  have ht : truthy (some s) = true := by simp [truthy, hne]
  simp [scopesResult, hall, hns, h, ht, hinv]

/-- C6: with no (truthy) skills value supplied, a successful `finalize`
grants the full skill set — all five defined skills, not only the
default-enabled ones — and with a skills value supplied it grants exactly the
valid skills parsed from it. -/
theorem c6_finalize_skill_defaulting :
    ∀ (input : MergedArgs) (cfg : ResolvedConfig),
      finalize input = .ok cfg →
      (truthy input.skills = false →
        cfg.finalSkills = some ALL_SKILLS.toFinset ∧
        ALL_SKILLS.toFinset.card = 5) ∧
      (∀ s, input.skills = some s → s ≠ "" →
        cfg.finalSkills = some (parseSkills s).valid) := by
  intro input cfg h
  obtain ⟨ht, _, _, sk, hsk, hfs⟩ := finalize_ok_inv input cfg h
  constructor
  · intro hns
    have hval : skillsResult input = .ok ALL_SKILLS.toFinset := by
      simp [skillsResult, hns]
    rw [hval, Except.ok.injEq] at hsk
    subst hsk
    exact ⟨hfs, by decide⟩
  · intro s hs hne
    have htt : truthy (some s) = true := by simp [truthy, hne]
    rw [show skillsResult input =
        (if (parseSkills s).invalid ≠ [] then
          .error (formatInvalidSkills (parseSkills s).invalid none)
        else if (parseSkills s).valid = ∅ then
          .error "Error: Invalid skills provided. No valid skills found."
        else .ok (parseSkills s).valid) from by simp [skillsResult, hs, htt]] at hsk
    split at hsk
    · simp at hsk
    · split at hsk
      · simp at hsk
      · rw [Except.ok.injEq] at hsk
        subst hsk
        exact hfs

/-- C6 witness: `finalize` with an access token and no skills flag yields the
full five-skill set. -/
theorem c6_finalize_skill_defaulting_witness :
    ({ accessToken := "t", sentryHost := "sentry.io",
       finalSkills := some ALL_SKILLS.toFinset } : ResolvedConfig).finalSkills
        = some ALL_SKILLS.toFinset ∧
    ALL_SKILLS.toFinset.card = 5 :=
  (c6_finalize_skill_defaulting { accessToken := some "t" }
      { accessToken := "t", sentryHost := "sentry.io",
        finalSkills := some ALL_SKILLS.toFinset }
      rfl).1 rfl

/-- C7: `merge` resolves every shared field CLI-first (`??` semantics), keeps
the CLI-only fields from the CLI record, and couples the legacy scope pair:
a truthy CLI `scopes` forces the merged `addScopes` to the CLI's `addScopes`,
and a truthy CLI `addScopes` forces the merged `scopes` to the CLI's
`scopes`. -/
theorem c7_merge_cli_first_coupled :
    ∀ (cli : CliArgs) (env : EnvArgs),
      ((merge cli env).accessToken = jsNullish cli.accessToken env.accessToken ∧
       (merge cli env).url = jsNullish cli.url env.url ∧
       (merge cli env).host = jsNullish cli.host env.host ∧
       (merge cli env).mcpUrl = jsNullish cli.mcpUrl env.mcpUrl ∧
       (merge cli env).sentryDsn = jsNullish cli.sentryDsn env.sentryDsn ∧
       (merge cli env).openaiBaseUrl = cli.openaiBaseUrl ∧
       (merge cli env).openaiModel = jsNullish cli.openaiModel env.openaiModel ∧
       (merge cli env).skills = jsNullish cli.skills env.skills ∧
       (merge cli env).organizationSlug = cli.organizationSlug ∧
       (merge cli env).projectSlug = cli.projectSlug ∧
       (merge cli env).allScopes = cli.allScopes ∧
       (merge cli env).agent = cli.agent ∧
       (merge cli env).help = cli.help ∧
       (merge cli env).version = cli.version) ∧
      (truthy cli.addScopes = false →
        (merge cli env).scopes = jsNullish cli.scopes env.scopes) ∧
      (truthy cli.scopes = false →
        (merge cli env).addScopes = jsNullish cli.addScopes env.addScopes) ∧
      (truthy cli.scopes = true → (merge cli env).addScopes = cli.addScopes) ∧
      (truthy cli.addScopes = true → (merge cli env).scopes = cli.scopes) := by
  intro cli env
  cases h1 : truthy cli.scopes <;> cases h2 : truthy cli.addScopes <;>
    simp [merge, h1, h2]

/-- C7 witness: a CLI scope override discards an unrelated additive env
value while the override itself survives the merge. -/
theorem c7_merge_cli_first_coupled_witness :
    (merge { scopes := some "org:admin" }
        { addScopes := some "project:write" }).addScopes = none ∧
    (merge { scopes := some "org:admin" }
        { addScopes := some "project:write" }).scopes = some "org:admin" :=
  ⟨(c7_merge_cli_first_coupled { scopes := some "org:admin" }
      { addScopes := some "project:write" }).2.2.2.1 (by decide),
   ((c7_merge_cli_first_coupled { scopes := some "org:admin" }
      { addScopes := some "project:write" }).2.1 (by decide)).trans rfl⟩

/-- C8: invalid tokens in the skills, scopes, or add-scopes input make
`finalize` fail, and (once the earlier blocks succeed) the failure message
carries the full list of invalid tokens through `formatInvalid` /
`formatInvalidSkills`, which join every token; an input whose valid set is
empty after parsing fails with the distinct "No valid ... found" error. -/
theorem c8_finalize_enumerates_invalid_tokens :
    ∀ (input : MergedArgs) (s : String),
      (input.skills = some s → (parseSkills s).invalid ≠ [] →
        (∀ cfg, finalize input ≠ .ok cfg) ∧
        (truthy input.accessToken = true →
          (∃ hh, hostResult input = .ok hh) →
          (∃ fs, scopesResult input = .ok fs) →
          finalize input =
            .error (formatInvalidSkills (parseSkills s).invalid none))) ∧
      (input.scopes = some s → (parseScopes s).invalid ≠ [] →
        input.allScopes = false →
        (∀ cfg, finalize input ≠ .ok cfg) ∧
        (truthy input.accessToken = true →
          (∃ hh, hostResult input = .ok hh) →
          finalize input = .error (formatInvalid (parseScopes s).invalid none))) ∧
      (input.addScopes = some s → (parseScopes s).invalid ≠ [] →
        input.allScopes = false → truthy input.scopes = false →
        (∀ cfg, finalize input ≠ .ok cfg) ∧
        (truthy input.accessToken = true →
          (∃ hh, hostResult input = .ok hh) →
          finalize input = .error (formatInvalid (parseScopes s).invalid none))) ∧
      (input.skills = some s → s ≠ "" → (parseSkills s).invalid = [] →
        (parseSkills s).valid = ∅ →
        truthy input.accessToken = true →
        (∃ hh, hostResult input = .ok hh) →
        (∃ fs, scopesResult input = .ok fs) →
        finalize input =
          .error "Error: Invalid skills provided. No valid skills found.") := by
  intro input s
  refine ⟨?_, ?_, ?_, ?_⟩
  · intro hs hinv
    have herr := skillsResult_invalid input s hs hinv
    constructor
    · intro cfg hok
      obtain ⟨_, _, _, sk, hsk, _⟩ := finalize_ok_inv input cfg hok
      rw [herr] at hsk
      simp at hsk
    · intro ht hh hfs
      exact finalize_error_of_skills input _ ht hh hfs herr
  · intro hsc hinv hall
    have herr := scopesResult_invalid_override input s hsc hinv hall
    constructor
    · intro cfg hok
      obtain ⟨_, _, ⟨fs, hfs, _⟩, _⟩ := finalize_ok_inv input cfg hok
      rw [herr] at hfs
      simp at hfs
    · intro ht hh
      exact finalize_error_of_scopes input _ ht hh herr
  · intro hadd hinv hall hns
    have herr := scopesResult_invalid_add input s hadd hinv hall hns
    constructor
    · intro cfg hok
      obtain ⟨_, _, ⟨fs, hfs, _⟩, _⟩ := finalize_ok_inv input cfg hok
      rw [herr] at hfs
      simp at hfs
    · intro ht hh
      exact finalize_error_of_scopes input _ ht hh herr
  · intro hs hne hinv hval ht hh hfs
    exact finalize_error_of_skills input _ ht hh hfs
      (skillsResult_empty_valid input s hs hne hinv hval)

/-- C8 witness: `finalize` with `skills = "inspect,bogus"` fails enumerating
exactly the one invalid token `bogus`. -/
theorem c8_finalize_enumerates_invalid_tokens_witness :
    finalize { accessToken := some "t", skills := some "inspect,bogus" } =
      .error (formatInvalidSkills ["bogus"] none) := by
  have h := ((c8_finalize_enumerates_invalid_tokens
      { accessToken := some "t", skills := some "inspect,bogus" }
      "inspect,bogus").1 rfl (by decide)).2 (by decide)
      ⟨"sentry.io", rfl⟩ ⟨none, rfl⟩
  rw [show (parseSkills "inspect,bogus").invalid = ["bogus"] from by decide] at h
  exact h

end SentryMcp
